import Mathlib

/-
Verification development for the resource_manager repository.

The Python sources under src/server (fixed_pagination.py and
resource_manager_server.py) are shallowly embedded below.  Python strings
are modelled as `List Char`; each subprocess call is modelled by an
environment record carrying the stdout/stderr/exit-code it produced (an
exception raised by a call is modelled by an explicit `CmdOutcome.exn`
constructor); Python `re` searches are modelled by bespoke matchers, one
per pattern occurring in the source, built on shared combinators that
implement leftmost unanchored search and greedy/lazy repetition with
backtracking, exactly as the `re` engine behaves on these patterns.
-/

namespace ResourceManager

/-- ASCII whitespace, matching Python str.strip and the regex class
backslash-s on ASCII input (space, tab, newline, carriage return,
vertical tab, form feed). -/
def pyIsSpace (c : Char) : Bool :=
  c = ' ' || c = '\t' || c = '\n' || c = '\r' || c = Char.ofNat 11 || c = Char.ofNat 12

/-- Python str.lower restricted to ASCII input. -/
def pyLower (s : List Char) : List Char := s.map Char.toLower

/-- Remove trailing characters satisfying p. -/
def dropTrailing (p : Char → Bool) (s : List Char) : List Char :=
  (s.reverse.dropWhile p).reverse

/-- Python str.strip with no argument: drop whitespace at both ends. -/
def pyStrip (s : List Char) : List Char := dropTrailing pyIsSpace (s.dropWhile pyIsSpace)

/-- Python substring containment, the expression `needle in hay`. -/
def pyIn (needle : List Char) : List Char → Bool
  | [] => needle.isPrefixOf []
  | s@(_ :: t) => needle.isPrefixOf s || pyIn needle t

/-- Python str.split(sep) for a one-character separator. -/
def pySplit (sep : Char) : List Char → List (List Char)
  | [] => [[]]
  | c :: rest =>
    if c = sep then [] :: pySplit sep rest
    else
      match pySplit sep rest with
      | [] => [[c]]
      | g :: gs => (c :: g) :: gs

/-- Python str.splitlines on text whose only line separator is a newline
character (the only separator appearing in the modelled inputs). -/
def pySplitlines : List Char → List (List Char)
  | [] => []
  | c :: rest =>
    if c = '\n' then [] :: pySplitlines rest
    else
      match pySplitlines rest with
      | [] => [[c]]
      | g :: gs => (c :: g) :: gs

/-- Python str.split(sep, 1): split at the first occurrence of sep, if any.
The Python test `sep in line` is equivalent to this returning some pair. -/
def pySplitOnce (sep : Char) : List Char → Option (List Char × List Char)
  | [] => none
  | c :: rest =>
    if c = sep then some ([], rest)
    else (pySplitOnce sep rest).map (fun p => (c :: p.1, p.2))

/-- Python dict lookup on an insertion-ordered association list. -/
def lookupAssoc {α : Type} : List (List Char × α) → List Char → Option α
  | [], _ => none
  | (k', v) :: rest, k => if k' = k then some v else lookupAssoc rest k

/-- Python dict assignment d[k] = v: overwrite in place when the key is
present (keeping its insertion position), append otherwise. -/
def updateAssoc {α : Type} : List (List Char × α) → List Char → α → List (List Char × α)
  | [], k, v => [(k, v)]
  | (k', v') :: rest, k, v =>
    if k' = k then (k, v) :: rest else (k', v') :: updateAssoc rest k v

/-- Numeric value of a run of ASCII digits. -/
def digitsToNat (s : List Char) : Nat :=
  s.foldl (fun n c => 10 * n + (c.toNat - '0'.toNat)) 0

/-- Python int(s) on an already-stripped string: an optional sign followed
by a nonempty run of ASCII digits (digit grouping with underscores is not
modelled); none models the ValueError raise. -/
def parseIntOpt (s : List Char) : Option Int :=
  match s with
  | '-' :: rest =>
    if rest ≠ [] ∧ rest.all Char.isDigit then some (-(digitsToNat rest : Int)) else none
  | '+' :: rest =>
    if rest ≠ [] ∧ rest.all Char.isDigit then some ((digitsToNat rest : Int)) else none
  | _ => if s ≠ [] ∧ s.all Char.isDigit then some ((digitsToNat s : Int)) else none

/-- Consume a literal at the head of the input, returning the remainder. -/
def chompLit (lit s : List Char) : Option (List Char) :=
  if lit.isPrefixOf s then some (s.drop lit.length) else none

/-- Leftmost unanchored search for a pattern that begins with the literal
lit and continues with k; when the continuation fails the search resumes
one character further, which is the behaviour of Python re.search. -/
def searchLit {α : Type} (lit : List Char) (k : List Char → Option α) : List Char → Option α
  | [] =>
    match chompLit lit [] with
    | some r => k r
    | none => none
  | s@(_ :: t) =>
    match chompLit lit s with
    | some r =>
      match k r with
      | some a => some a
      | none => searchLit lit k t
    | none => searchLit lit k t

/-- Lazy dot-plus: one or more non-newline characters, shortest first,
followed by the continuation k, with full backtracking into k. -/
def lazyDotPlus {α : Type} (k : List Char → Option α) : List Char → Option (List Char × α)
  | [] => none
  | c :: rest =>
    if c = '\n' then none
    else
      match k rest with
      | some a => some ([c], a)
      | none =>
        match lazyDotPlus k rest with
        | some (g, a) => some (c :: g, a)
        | none => none

/-- Greedy plus of a character class at the head of the input: the maximal
nonempty run.  Used only where the following pattern element cannot accept
a character of the class, so no backtracking case is reachable. -/
def grabRun1 (p : Char → Bool) (s : List Char) : Option (List Char × List Char) :=
  match s.takeWhile p with
  | [] => none
  | run => some (run, s.dropWhile p)

/-- Greedy whitespace-plus followed by a greedy capture of the rest of the
line: try the longest whitespace run first and shorten it (regex
backtracking) until a non-newline character follows, then capture the
maximal non-newline run from there.  The argument is the length of the
whitespace run still being attempted. -/
def wsThenLineAt (rest : List Char) : Nat → Option (List Char)
  | 0 => none
  | k + 1 =>
    match (rest.drop (k + 1)).head? with
    | some c =>
      if c ≠ '\n' then some ((rest.drop (k + 1)).takeWhile (fun d => d ≠ '\n'))
      else wsThenLineAt rest k
    | none => wsThenLineAt rest k

/-- The group of re.search for a pattern of the shape label, whitespace
plus, then a captured non-newline run, as in the Active: and Loaded:
lines of get_service_status. -/
def searchLabelLine (label : List Char) (s : List Char) : Option (List Char) :=
  searchLit label (fun rest => wsThenLineAt rest (rest.takeWhile pyIsSpace).length) s

/-- re.search for the since-semicolon-ago pattern of get_service_status:
literal since-space, lazy captured run, semicolon, lazy captured run,
literal ago.  Returns the two groups. -/
def reSearchSince (s : List Char) : Option (List Char × List Char) :=
  (searchLit "since ".data
    (fun rest =>
      lazyDotPlus
        (fun r1 =>
          match chompLit [';'] r1 with
          | some r2 =>
            lazyDotPlus (fun r3 => (chompLit "ago".data r3).map (fun _ => ())) r2
          | none => none)
        rest)
    s).map (fun p => (p.1, p.2.1))

/-- The alternation of the boot-status regex of get_service_status, tried
in source order against the head of the input. -/
def matchEnabledAlt (s : List Char) : Option (List Char) :=
  if "enabled".data.isPrefixOf s then some "enabled".data
  else if "disabled".data.isPrefixOf s then some "disabled".data
  else if "indirect".data.isPrefixOf s then some "indirect".data
  else if "static".data.isPrefixOf s then some "static".data
  else none

/-- re.search for the boot-status pattern of get_service_status: a
semicolon, greedy whitespace-star, then the alternation.  After the
semicolon the greedy whitespace run takes its maximum; any shorter run
leaves a whitespace character next, which no alternative can start with,
so no backtracking case is reachable. -/
def searchSemiEnabled (s : List Char) : Option (List Char) :=
  searchLit [';'] (fun rest => matchEnabledAlt (rest.dropWhile pyIsSpace)) s

/-- re.search for the Main PID pattern of get_service_status: the literal
label then a captured digit run. -/
def searchMainPid (s : List Char) : Option (List Char) :=
  searchLit "Main PID: ".data
    (fun rest => (grabRun1 Char.isDigit rest).map (fun p => p.1)) s

/-- re.search for the Tasks pattern of get_service_status: literal label,
captured digit run, literal limit text, captured digit run, closing
parenthesis. -/
def searchTasks (s : List Char) : Option (List Char × List Char) :=
  searchLit "Tasks: ".data
    (fun rest =>
      match grabRun1 Char.isDigit rest with
      | some (g1, r1) =>
        match chompLit " (limit: ".data r1 with
        | some r2 =>
          match grabRun1 Char.isDigit r2 with
          | some (g2, r3) => (chompLit [')'] r3).map (fun _ => (g1, g2))
          | none => none
        | none => none
      | none => none)
    s

/-- re.search for the Memory pattern of get_service_status: literal label,
a captured run of non-open-parenthesis characters, the literal peak text,
a captured run of non-close-parenthesis characters, closing parenthesis.
Each greedy run is followed by a character it cannot contain, so the
match is deterministic. -/
def searchMemory (s : List Char) : Option (List Char × List Char) :=
  searchLit "Memory: ".data
    (fun rest =>
      match grabRun1 (fun c => c ≠ '(') rest with
      | some (g1, r1) =>
        match chompLit "(peak: ".data r1 with
        | some r2 =>
          match grabRun1 (fun c => c ≠ ')') r2 with
          | some (g2, r3) => (chompLit [')'] r3).map (fun _ => (g1, g2))
          | none => none
        | none => none
      | none => none)
    s

/-- re.search for the CPU pattern of get_service_status: literal label then
a captured non-newline run. -/
def searchCpu (s : List Char) : Option (List Char) :=
  searchLit "CPU: ".data
    (fun rest => (grabRun1 (fun c => c ≠ '\n') rest).map (fun p => p.1)) s

/-- One character of a class, for fixed-count class repetitions. -/
def chompCls (p : Char → Bool) : List Char → Option (Char × List Char)
  | [] => none
  | c :: rest => if p c then some (c, rest) else none

/-- A log entry dictionary as built by get_paginated_journal_logs. -/
structure LogEntry where
  raw : List Char
  timestamp : Option (List Char)
  hostname : Option (List Char)
  process : Option (List Char)
  message : Option (List Char)
deriving DecidableEq

/-- The time sub-pattern of both journal-line patterns: digit run, colon,
digit run, colon, digit run.  Returns the consumed characters and the
remainder.  A greedy digit run followed by a non-digit literal matches
deterministically. -/
def matchTimeTriple (s : List Char) : Option (List Char × List Char) :=
  match grabRun1 Char.isDigit s with
  | none => none
  | some (d1, r1) =>
    match chompLit [':'] r1 with
    | none => none
    | some r2 =>
      match grabRun1 Char.isDigit r2 with
      | none => none
      | some (d2, r3) =>
        match chompLit [':'] r3 with
        | none => none
        | some r4 =>
          match grabRun1 Char.isDigit r4 with
          | none => none
          | some (d3, r5) => some (d1 ++ ':' :: (d2 ++ ':' :: d3), r5)

/-- The day-and-time sub-pattern of both journal-line patterns: digit run,
space, then the time triple.  Returns the consumed characters and the
remainder. -/
def matchDayTime (s : List Char) : Option (List Char × List Char) :=
  match grabRun1 Char.isDigit s with
  | none => none
  | some (d0, r0) =>
    match chompLit [' '] r0 with
    | none => none
    | some r1 =>
      match matchTimeTriple r1 with
      | none => none
      | some (t, r2) => some (d0 ++ ' ' :: t, r2)

/-- The tail of the main journal-line pattern after its first captured
group: space, captured non-space run, space, captured non-colon run, the
literal colon-space, then a captured greedy dot-star. -/
def matchHostProcMsg (s : List Char) :
    Option (List Char × List Char × List Char) :=
  match chompLit [' '] s with
  | none => none
  | some r0 =>
    match grabRun1 (fun c => c ≠ ' ') r0 with
    | none => none
    | some (g2, r1) =>
      match chompLit [' '] r1 with
      | none => none
      | some r2 =>
        match grabRun1 (fun c => c ≠ ':') r2 with
        | none => none
        | some (g3, r3) =>
          match chompLit [':', ' '] r3 with
          | none => none
          | some r4 => some (g2, g3, r4.takeWhile (fun c => c ≠ '\n'))

/-- re.match of the main journal-line pattern: captured group of alpha run,
space, digit run, space, digit run, colon, digit run, colon, digit run;
then space, captured non-space run, space, captured non-colon run, the
literal colon-space, and a captured greedy dot-star.  The match is
anchored at the start of the line; every greedy run is followed by a
character it cannot contain, so the match is deterministic. -/
def matchJournalLineMain (s : List Char) :
    Option (List Char × List Char × List Char × List Char) :=
  match grabRun1 Char.isAlpha s with
  | none => none
  | some (a1, r0) =>
    match chompLit [' '] r0 with
    | none => none
    | some r1 =>
      match matchDayTime r1 with
      | none => none
      | some (dt, r2) =>
        match matchHostProcMsg r2 with
        | none => none
        | some (g2, g3, g4) => some (a1 ++ ' ' :: dt, g2, g3, g4)

/-- re.match of the alternative journal-line pattern: captured group of
exactly three alpha characters, space, digit run, space, digit run,
colon, digit run, colon, digit run; then space and a captured greedy
nonempty dot-plus.  With exactly three class characters required, a
fourth alpha character makes the following literal space fail with no
backtracking available. -/
def matchJournalLineAlt (s : List Char) : Option (List Char × List Char) :=
  match s with
  | c1 :: c2 :: c3 :: rest =>
    if c1.isAlpha ∧ c2.isAlpha ∧ c3.isAlpha then
      match chompLit [' '] rest with
      | none => none
      | some r0 =>
        match matchDayTime r0 with
        | none => none
        | some (dt, r1) =>
          match chompLit [' '] r1 with
          | none => none
          | some r2 =>
            match grabRun1 (fun c => c ≠ '\n') r2 with
            | none => none
            | some (g2, _) => some (c1 :: c2 :: c3 :: ' ' :: dt, g2)
    else none
  | _ => none

/-- The per-line parsing step of get_paginated_journal_logs: the main
pattern is tried first, then the alternative pattern, first match wins;
when neither matches only the raw field is kept. -/
def parseLogLine (line : List Char) : LogEntry :=
  match matchJournalLineMain line with
  | some (t, h, p, m) =>
    { raw := line, timestamp := some t, hostname := some h
      process := some p, message := some m }
  | none =>
    match matchJournalLineAlt line with
    | some (t, m) =>
      { raw := line, timestamp := some t, hostname := none
        process := none, message := some m }
    | none =>
      { raw := line, timestamp := none, hostname := none
        process := none, message := none }

/-- The line loop of get_paginated_journal_logs: split the slice stdout
into lines, skip lines that strip to empty, parse the rest. -/
def parseLogLines (stdout : List Char) : List LogEntry :=
  ((pySplitlines stdout).filter (fun l => !(pyStrip l).isEmpty)).map parseLogLine

/-- Outcome of one subprocess.run call: captured stdout, stderr and exit
code, or an exception raised by the call itself. -/
inductive CmdOutcome where
  | ok (stdout stderr : List Char) (code : Int)
  | exn (msg : List Char)
deriving DecidableEq

/-- Environment of one get_paginated_journal_logs request: the outcome of
the counting pipeline and the outcome of the slicing pipeline. -/
structure PagEnv where
  countRun : CmdOutcome
  sliceRun : CmdOutcome
deriving DecidableEq

/-- count_total_journal_entries of fixed_pagination.py.  Its own
try/except absorbs both a subprocess exception and an int ValueError and
returns 0; a non-zero exit code also returns 0. -/
def count_total_journal_entries (env : PagEnv) : Int :=
  match env.countRun with
  | .exn _ => 0
  | .ok out _err code =>
    if code = 0 then
      match parseIntOpt (pyStrip out) with
      | some n => n
      | none => 0
    else 0

/-- Exact integer ceiling division for a positive divisor: the
specification-side value of ceil(total_logs / per_page), used to compare
the program's float-based computation against the exact rational
ceiling. -/
def exactCeilDiv (a b : Int) : Int := (a + b - 1) / b

/-- Round the rational n over d (d positive) to the nearest natural
number, ties to even: the rounding step of IEEE 754 binary64
arithmetic. -/
def roundHalfEvenDiv (n d : ℕ) : ℕ :=
  let q := n / d
  let r := n % d
  if 2 * r < d then q
  else if d < 2 * r then q + 1
  else if q % 2 = 0 then q else q + 1

/-- math.ceil of the CPython binary64 true-division a / b for positive
naturals a and b.  CPython rounds the exact quotient to the nearest
double (53-bit significand, round half to even): writing t for the
floor of the base-two logarithm of a / b, the unit in the last place is
2 to the (t - 52), clamped below at 2 to the -1074 (the subnormal
granularity); the float is the quotient rounded half-to-even to that
granularity and the ceiling of the float is returned.  The floor of the
logarithm is read off the integer quotient of a * 2 ^ 1023 by b, whose
own base-two logarithm exceeds it by 1023 whenever that quotient is
nonzero; a zero quotient means the value is deep in the subnormal range
and the clamped granularity applies directly.  Quotients at or above
2 ^ 1024 raise OverflowError in CPython; that branch is not modelled
here and every theorem below stays far inside it. -/
def pyCeilDivNat (a b : ℕ) : ℕ :=
  let A := a * 2 ^ 1023
  if A / b = 0 then
    (roundHalfEvenDiv (a * 2 ^ 1074) b + (2 ^ 1074 - 1)) / 2 ^ 1074
  else
    let t : ℤ := (Nat.log2 (A / b) : ℤ) - 1023
    let e : ℤ := max (t - 52) (-1074)
    if 0 ≤ e then roundHalfEvenDiv a (b * 2 ^ e.toNat) * 2 ^ e.toNat
    else (roundHalfEvenDiv (a * 2 ^ (-e).toNat) b + (2 ^ (-e).toNat - 1)) / 2 ^ (-e).toNat

/-- ceil(total_logs / per_page) as the program computes it: binary64
float true-division followed by math.ceil.  Both arguments are positive
at the call site (the total_logs > 0 guard and the max-normalised
per_page), so the natural-number float model applies verbatim. -/
def pyCeilDiv (a b : Int) : Int := (pyCeilDivNat a.toNat b.toNat : Int)

/-- The pagination metadata dictionary of get_paginated_journal_logs. -/
structure Pagination where
  page : Int
  per_page : Int
  total_logs : Int
  total_pages : Int
  has_prev : Bool
  has_next : Bool
deriving DecidableEq

/-- The response dictionary of get_paginated_journal_logs.  The command
field is omitted (it only echoes the argument strings). -/
structure PagResult where
  logs : List LogEntry
  log_count : Nat
  pagination : Pagination
  exit_code : Option Int
  error : Option (List Char)
deriving DecidableEq

/-- get_paginated_journal_logs of fixed_pagination.py for integer page and
per_page arguments.  The only statement of the try block that can raise
is the subprocess.run of the slicing pipeline (count_total_journal_entries
absorbs its own exceptions, and int on an Int argument cannot fail); the
except branch builds the zero-result dictionary, reading the page and
per_page names after their max-normalising rebind. -/
def get_paginated_journal_logs (env : PagEnv) (page per_page : Int) : PagResult :=
  let total_logs := count_total_journal_entries env
  let page' := max 1 page
  let per_page' := max 1 per_page
  let total_pages := if total_logs > 0 then pyCeilDiv total_logs per_page' else 1
  match env.sliceRun with
  | .exn msg =>
    { logs := [], log_count := 0
      pagination :=
        { page := page', per_page := per_page', total_logs := 0, total_pages := 1
          has_prev := false, has_next := false }
      exit_code := none, error := some msg }
  | .ok out err code =>
    let entries := if code = 0 then parseLogLines out else []
    { logs := entries, log_count := entries.length
      pagination :=
        { page := page', per_page := per_page', total_logs := total_logs
          total_pages := total_pages
          has_prev := decide (page' > 1), has_next := decide (page' < total_pages) }
      exit_code := some code, error := if err = [] then none else some err }

/-- Environment of one get_service_status call: stdout and exit code of
the status command, stdout of the LoadState probe, stdout of the
is-enabled probe.  A run_command exception is equivalent to empty stdout
with exit code one and needs no separate constructor here. -/
structure StatusEnv where
  status_stdout : List Char
  status_code : Int
  loadstate_stdout : List Char
  isenabled_stdout : List Char
deriving DecidableEq

/-- The parsed-status dictionary built by get_service_status.  Optional
fields model dictionary keys that are only conditionally inserted; the
details sub-dictionary is flattened into its four optional entries. -/
structure ServiceStatus where
  running : Bool
  enabled : Bool
  boot_status : Option (List Char)
  active_raw : Option (List Char)
  loaded_raw : Option (List Char)
  started_at : Option (List Char)
  uptime : Option (List Char)
  pid : Option Int
  tasks : Option (Int × Int)
  memory : Option (List Char × List Char)
  cpu_usage : Option (List Char)
deriving DecidableEq

/-- Result of get_service_status: either the not-found error dictionary or
a parsed-status dictionary. -/
inductive StatusResult where
  | notFound
  | ok (s : ServiceStatus)
deriving DecidableEq

/-- get_service_status of resource_manager_server.py. -/
def get_service_status (env : StatusEnv) : StatusResult :=
  if pyIn "not-found".data (pyLower env.loadstate_stdout) then .notFound
  else
    let enabled0 := pyIn "enabled".data (pyLower env.isenabled_stdout)
    let boot0 := pyStrip env.isenabled_stdout
    if env.status_code ≠ 0 then
      .ok { running := false, enabled := enabled0, boot_status := some boot0
            active_raw := some "inactive".data, loaded_raw := none, started_at := none
            uptime := none, pid := none, tasks := none, memory := none, cpu_usage := none }
    else
      let activeM := (searchLabelLine "Active:".data env.status_stdout).map pyStrip
      let loadedM := (searchLabelLine "Loaded:".data env.status_stdout).map pyStrip
      let running :=
        match activeM with
        | some a => pyIn "running".data (pyLower a)
        | none => false
      let sinceM :=
        match activeM with
        | some a => reSearchSince a
        | none => none
      let bootM :=
        match loadedM with
        | some l => searchSemiEnabled l
        | none => none
      .ok { running := running
            enabled :=
              match bootM with
              | some b => decide (b = "enabled".data ∨ b = "indirect".data)
              | none => enabled0
            boot_status :=
              match bootM with
              | some b => some b
              | none => some boot0
            active_raw := activeM
            loaded_raw := loadedM
            started_at := sinceM.map (fun p => pyStrip p.1)
            uptime := sinceM.map (fun p => pyStrip p.2)
            pid := (searchMainPid env.status_stdout).map (fun d => (digitsToNat d : Int))
            tasks := (searchTasks env.status_stdout).map
              (fun p => ((digitsToNat p.1 : Int), (digitsToNat p.2 : Int)))
            memory := (searchMemory env.status_stdout).map (fun p => (pyStrip p.1, pyStrip p.2))
            cpu_usage := (searchCpu env.status_stdout).map pyStrip }

/-- The while loop of wait_for_service_state under an idealised clock:
each is-active call is instantaneous and each sleep advances time by
exactly one second, so the iteration guarded by elapsed-below-timeout
runs its poll at integer elapsed time.  The first argument of the
recursion is the number of seconds left before the deadline; the pair
returned is the boolean result and the elapsed time at return. -/
def waitPollFrom (poll : Nat → List Char) (desired : List Char) :
    Nat → Nat → Bool × Nat
  | 0, elapsed => (false, elapsed)
  | remaining + 1, elapsed =>
    if pyStrip (poll elapsed) = desired then (true, elapsed)
    else waitPollFrom poll desired remaining (elapsed + 1)

/-- wait_for_service_state of resource_manager_server.py, with poll k the
stdout of the is-active call performed at elapsed time k. -/
def wait_for_service_state (poll : Nat → List Char) (desired : List Char)
    (timeout : Nat) : Bool × Nat :=
  waitPollFrom poll desired timeout 0

/-- A section value of the get_service_config parser: Environment inside
the Service section is a list, every other key a plain string. -/
inductive ConfVal where
  | str (v : List Char)
  | listv (vs : List (List Char))
deriving DecidableEq

/-- The mutable state of the get_service_config parsing loop. -/
structure UFState where
  current : Option (List Char)
  unitSec : List (List Char × ConfVal)
  serviceSec : List (List Char × ConfVal)
  installSec : List (List Char × ConfVal)
  metadata : List (List Char × List Char)
deriving DecidableEq

def initUFState : UFState := ⟨none, [], [], [], []⟩

/-- re.match of the section-header pattern: an opening bracket, a captured
nonempty alpha run, a closing bracket; the rest of the line is ignored
because re.match is not anchored at the end. -/
def matchSectionHeader (line : List Char) : Option (List Char) :=
  match line with
  | '[' :: rest =>
    match grabRun1 Char.isAlpha rest with
    | some (name, r1) => if r1.head? = some ']' then some name else none
    | none => none
  | _ => none

/-- Strip one layer of surrounding double quotes, as get_service_config
does before unescaping. -/
def stripOuterQuotes (v : List Char) : List Char :=
  if v.head? = some '"' ∧ v.getLast? = some '"' then (v.drop 1).dropLast else v

/-- Replace each backslash-quote pair by a double quote, left to right,
the str.replace call of get_service_config. -/
def unescapeQuotes : List Char → List Char
  | [] => []
  | '\\' :: '"' :: rest => '"' :: unescapeQuotes rest
  | c :: rest => c :: unescapeQuotes rest

/-- The value cleanup of get_service_config: strip, remove one layer of
surrounding quotes, unescape inner quotes. -/
def processValue (v : List Char) : List Char := unescapeQuotes (stripOuterQuotes (pyStrip v))

/-- One iteration of the get_service_config line loop.  none models the
KeyError raised by indexing the sections dictionary when the current
section is none of Unit, Service, Install.  A str value under the
Service Environment key would make the append raise; that case is
unreachable from the initial state and is also modelled as none. -/
def config_process_line (st : UFState) (rawLine : List Char) : Option UFState :=
  let line := pyStrip rawLine
  if line.isEmpty ∨ line.head? = some '#' then some st
  else
    match matchSectionHeader line with
    | some sec => some { st with current := some sec }
    | none =>
      match st.current with
      | none => some st
      | some sec =>
        match pySplitOnce '=' line with
        | none => some st
        | some (k0, v0) =>
          let key := pyStrip k0
          let value := processValue v0
          if "X-Metadata-".data.isPrefixOf key then
            some { st with metadata := updateAssoc st.metadata (key.drop 11) value }
          else if sec = "Service".data ∧ key = "Environment".data then
            match lookupAssoc st.serviceSec "Environment".data with
            | none =>
              let sv := updateAssoc st.serviceSec "Environment".data (.listv [value])
              some { st with serviceSec := sv }
            | some (.listv vs) =>
              let sv := updateAssoc st.serviceSec "Environment".data (.listv (vs ++ [value]))
              some { st with serviceSec := sv }
            | some (.str _) => none
          else if sec = "Unit".data then
            some { st with unitSec := updateAssoc st.unitSec key (.str value) }
          else if sec = "Service".data then
            some { st with serviceSec := updateAssoc st.serviceSec key (.str value) }
          else if sec = "Install".data then
            some { st with installSec := updateAssoc st.installSec key (.str value) }
          else none

/-- The parsing loop of get_service_config over the systemctl cat stdout. -/
def get_service_config_parse (stdout : List Char) : Option UFState :=
  (pySplitlines stdout).foldlM config_process_line initUFState

/-- A metadata value of parse_x_metadata: a leaf string or a nested map. -/
inductive MVal where
  | leaf (s : List Char)
  | node (m : List (List Char × MVal))

/-- The leaf-value cleanup of parse_x_metadata: remove every double quote,
then strip. -/
def cleanMetaLeaf (v : List Char) : List Char :=
  pyStrip (v.filter (fun c => c ≠ '"'))

/-- The nested-insertion loop of parse_x_metadata, rendered functionally
(the Python code mutates nested dicts in place; the value is a tree, so
path-wise rebuilding is equivalent).  none models the TypeError raised
after navigation reaches a leaf string: the following iteration then
either item-assigns into the string or indexes it with a string key,
both of which raise.  The empty-path case cannot arise because a
str.split result is never empty. -/
def metaInsert : List (List Char × MVal) → List (List Char) → List Char →
    Option (List (List Char × MVal))
  | m, [], _ => some m
  | m, [k], v => some (updateAssoc m k (.leaf (cleanMetaLeaf v)))
  | m, k :: k2 :: kt, v =>
    match lookupAssoc m k with
    | none =>
      match metaInsert [] (k2 :: kt) v with
      | some sub => some (updateAssoc m k (.node sub))
      | none => none
    | some (.node sub) =>
      match metaInsert sub (k2 :: kt) v with
      | some sub' => some (updateAssoc m k (.node sub'))
      | none => none
    | some (.leaf _) => none

/-- The line loop of parse_x_metadata over the systemctl cat stdout;
none models a propagated TypeError. -/
def parse_x_metadata_lines (stdout : List Char) : Option (List (List Char × MVal)) :=
  (pySplitlines stdout).foldlM
    (fun m rawLine =>
      let line := pyStrip rawLine
      if "X-Metadata-".data.isPrefixOf line then
        match pySplitOnce '=' (line.drop 11) with
        | some (kp, v) => metaInsert m (pySplit '_' (pyLower kp)) v
        | none => some m
      else some m)
    []

/-- The sentinel values discarded by parse_systemctl_show_output. -/
def filterValues : List (List Char) :=
  ["n/a".data, "0".data, "infinity".data, "[no data]".data, "null".data,
   "[not set]".data, []]

/-- parse_systemctl_show_output of resource_manager_server.py: strip the
whole output, split on newlines, keep key=value lines whose value is not
a sentinel, last write wins. -/
def parse_systemctl_show_output (output : List Char) : List (List Char × List Char) :=
  (pySplit '\n' (pyStrip output)).foldl
    (fun result line =>
      match pySplitOnce '=' line with
      | some (key, value) =>
        if value ∈ filterValues then result else updateAssoc result key value
      | none => result)
    []

/-- A value of the two directive sub-parsers: a string or an array. -/
inductive EnvVal where
  | str (v : List Char)
  | arr (vs : List (List Char))
deriving DecidableEq

/-- Split at every character satisfying p, keeping empty pieces. -/
def splitOnPred (p : Char → Bool) : List Char → List (List Char)
  | [] => [[]]
  | c :: rest =>
    if p c then [] :: splitOnPred p rest
    else
      match splitOnPred p rest with
      | [] => [[c]]
      | g :: gs => (c :: g) :: gs

/-- Python str.split with no argument: whitespace runs separate tokens and
produce no empty pieces. -/
def pySplitWs (s : List Char) : List (List Char) :=
  (splitOnPred pyIsSpace s).filter (fun g => g ≠ [])

def lCurly : Char := Char.ofNat 123

def rCurly : Char := Char.ofNat 125

/-- Remove every bracket pair, the str.replace call of
parse_exec_directive. -/
def removeBrackets : List Char → List Char
  | [] => []
  | '[' :: ']' :: rest => removeBrackets rest
  | c :: rest => c :: removeBrackets rest

/-- parse_exec_directive of resource_manager_server.py. -/
def parse_exec_directive (dv0 : List Char) : List (List Char × EnvVal) :=
  let dv :=
    if dv0.head? = some lCurly ∧ dv0.getLast? = some rCurly
    then pyStrip ((dv0.drop 1).dropLast) else dv0
  (pySplit ';' dv).foldl
    (fun result part0 =>
      let part := pyStrip part0
      if part.isEmpty then result
      else
        match pySplitOnce '=' part with
        | none => result
        | some (k0, v0) =>
          let key := pyStrip k0
          let value := pyStrip v0
          if "[]".data.isSuffixOf key then
            let key' := removeBrackets key
            if value ≠ [] then updateAssoc result key' (.arr (pySplitWs value))
            else updateAssoc result key' (.arr [])
          else updateAssoc result key (.str value))
    []

/-- parse_environment_directive of resource_manager_server.py. -/
def parse_environment_directive (dv : List Char) : List (List Char × EnvVal) :=
  (pySplitWs dv).foldl
    (fun result env_var =>
      match pySplitOnce '=' env_var with
      | none => result
      | some (key, value) =>
        if (pySplitOnce ',' value).isSome then
          updateAssoc result key (.arr (pySplit ',' value))
        else updateAssoc result key (.str value))
    []

/-- The section_prefixes table of get_service_unit_info_v2, in its
iteration order. -/
def sectionTable : List (List Char × List (List Char)) :=
  [("Unit".data,
    ["Description".data, "Documentation".data, "Before".data, "After".data,
     "Wants".data, "Requires".data]),
   ("Service".data,
    ["Type".data, "ExecStart".data, "ExecStop".data, "Restart".data,
     "Environment".data, "User".data, "Group".data, "WorkingDirectory".data]),
   ("Install".data, ["WantedBy".data, "Alias".data])]

/-- The flattened (section, property-name-start) pairs of sectionTable, in
the order the two nested break-on-first-match loops of
get_service_unit_info_v2 visit them. -/
def flatPairs : List (List Char × List Char) :=
  sectionTable.flatMap (fun sp => sp.2.map (fun p => (sp.1, p)))

/-- The section chosen by the nested loops of get_service_unit_info_v2 for
a property key: the first pair in flattened loop order whose
property-name start is a string prefix of the key. -/
def firstMatchSection (key : List Char) : Option (List Char) :=
  (flatPairs.find? (fun pr => pr.2.isPrefixOf key)).map (fun pr => pr.1)

/-- Longest-prefix-match section assignment, stated from the words of the
specification: among all table pairs whose property-name start is a
prefix of the key, one of maximal start length. -/
def longestMatchSection (key : List Char) : Option (List Char) :=
  ((flatPairs.filter (fun pr => pr.2.isPrefixOf key)).foldl
    (fun best pr =>
      match best with
      | none => some pr
      | some b => if pr.2.length > b.2.length then some pr else some b)
    none).map (fun pr => pr.1)

/-- A section value of the v2 config view. -/
inductive PropVal where
  | str (v : List Char)
  | execInfo (m : List (List Char × EnvVal))
  | envInfo (m : List (List Char × EnvVal))
deriving DecidableEq

/-- The per-property value handling applied on assignment into a section
by get_service_unit_info_v2. -/
def transformPropValue (key value : List Char) : PropVal :=
  if "Exec".data.isPrefixOf key ∧ value.head? = some lCurly then
    .execInfo (parse_exec_directive value)
  else if key = "Environment".data then .envInfo (parse_environment_directive value)
  else .str value

/-- The three section dictionaries of the v2 config view. -/
structure SectionsV2 where
  unitSec : List (List Char × PropVal)
  serviceSec : List (List Char × PropVal)
  installSec : List (List Char × PropVal)
deriving DecidableEq

def assignToSection (acc : SectionsV2) (sec key value : List Char) : SectionsV2 :=
  if sec = "Unit".data then
    { acc with unitSec := updateAssoc acc.unitSec key (transformPropValue key value) }
  else if sec = "Service".data then
    { acc with serviceSec := updateAssoc acc.serviceSec key (transformPropValue key value) }
  else if sec = "Install".data then
    { acc with installSec := updateAssoc acc.installSec key (transformPropValue key value) }
  else acc

/-- One iteration of the property-to-section assignment loop of
get_service_unit_info_v2. -/
def assignStep (acc : SectionsV2) (kv : List Char × List Char) : SectionsV2 :=
  match firstMatchSection kv.1 with
  | some sec => assignToSection acc sec kv.1 kv.2
  | none => acc

/-- The property-to-section assignment loop of get_service_unit_info_v2. -/
def assignSections (props : List (List Char × List Char)) : SectionsV2 :=
  props.foldl assignStep ⟨[], [], []⟩

/-- Environment of one get_service_unit_info_v2 call. -/
structure UnitInfoEnv where
  loadstate_stdout : List Char
  show_stdout : List Char
  show_code : Int
  cat_stdout : List Char
  cat_code : Int
deriving DecidableEq

/-- The successful response of get_service_unit_info_v2. -/
structure UnitInfoV2 where
  config : SectionsV2
  metadata : List (List Char × MVal)
  all_properties : List (List Char × List Char)

/-- Result of get_service_unit_info_v2: an error dictionary or a response;
the outer none models a TypeError propagated from parse_x_metadata. -/
inductive UnitInfoResult where
  | err
  | ok (r : UnitInfoV2)

/-- get_service_unit_info_v2 of resource_manager_server.py.  A non-zero
exit of the secondary systemctl cat call makes parse_x_metadata return
an empty metadata map. -/
def get_service_unit_info_v2 (env : UnitInfoEnv) : Option UnitInfoResult :=
  if pyIn "not-found".data (pyLower env.loadstate_stdout) then some .err
  else if env.show_code ≠ 0 then some .err
  else
    let all_properties := parse_systemctl_show_output env.show_stdout
    let sections := assignSections all_properties
    match (if env.cat_code ≠ 0 then some [] else parse_x_metadata_lines env.cat_stdout) with
    | some md => some (.ok ⟨sections, md, all_properties⟩)
    | none => none

/-! Helper lemmas. -/

theorem exactCeilDiv_eq_ceil (a b : Int) (hb : 0 < b) :
    exactCeilDiv a b = ⌈(a : ℚ) / (b : ℚ)⌉ := by
  have hbq : (0 : ℚ) < (b : ℚ) := by exact_mod_cast hb
  have hbne : b ≠ 0 := by omega
  have hmod0 : 0 ≤ (a + b - 1) % b := Int.emod_nonneg _ hbne
  have hmodlt : (a + b - 1) % b < b := Int.emod_lt_of_pos _ hb
  have hdiv : b * ((a + b - 1) / b) + (a + b - 1) % b = a + b - 1 :=
    Int.ediv_add_emod _ _
  symm
  rw [Int.ceil_eq_iff]
  constructor
  · have hint : (exactCeilDiv a b - 1) * b < a := by
      have hexp : (exactCeilDiv a b - 1) * b = b * ((a + b - 1) / b) - b := by
        unfold exactCeilDiv; ring
      omega
    have := (lt_div_iff₀ hbq).mpr (show ((exactCeilDiv a b - 1 : Int) : ℚ) * b < a by
      exact_mod_cast hint)
    calc ((exactCeilDiv a b : Int) : ℚ) - 1 = ((exactCeilDiv a b - 1 : Int) : ℚ) := by push_cast; ring
    _ < (a : ℚ) / (b : ℚ) := this
  · have hint : a ≤ exactCeilDiv a b * b := by
      have hexp : exactCeilDiv a b * b = b * ((a + b - 1) / b) := by
        unfold exactCeilDiv; ring
      omega
    exact (div_le_iff₀ hbq).mpr (by exact_mod_cast hint)

theorem rheBounds (n d : ℕ) (hd : 0 < d) :
    2 * roundHalfEvenDiv n d * d ≤ 2 * n + d ∧
    2 * n ≤ 2 * roundHalfEvenDiv n d * d + d := by
  have hdm : d * (n / d) + n % d = n := Nat.div_add_mod n d
  have hr : n % d < d := Nat.mod_lt n hd
  simp only [roundHalfEvenDiv]
  generalize hq : n / d = q at *
  generalize hrr : n % d = r at *
  split
  · constructor <;> nlinarith
  · split
    · constructor <;> nlinarith
    · split
      · constructor <;> nlinarith
      · constructor <;> nlinarith

theorem sandwichInt (m bz P C A s : ℤ) (hb : 0 < bz) (hP : 0 < P) (hbP : bz < 2 * P)
    (hup : 2 * m * bz ≤ 2 * A * P + bz)
    (hlow : 2 * A * P ≤ 2 * m * bz + bz)
    (hbr : bz * C + s = A + bz - 1) (hs0 : 0 ≤ s) (hs : s < bz) :
    C * P - P < m ∧ m ≤ C * P := by
  have hCA : 2 * A ≤ 2 * (bz * C) := by linarith
  have hCA2 : 2 * (bz * C - bz + 1) ≤ 2 * A := by linarith
  constructor
  · by_contra hcon
    push_neg at hcon
    have hmono : 2 * m * bz ≤ 2 * (C * P - P) * bz := by nlinarith
    have hA2 : 2 * (bz * C - bz + 1) * P ≤ 2 * A * P := by nlinarith
    nlinarith
  · by_contra hcon
    push_neg at hcon
    have hmono : 2 * (C * P + 1) * bz ≤ 2 * m * bz := by nlinarith
    have hA1 : 2 * A * P ≤ 2 * (bz * C) * P := by nlinarith
    nlinarith

theorem floatCeilBranch (a b E : ℕ) (ha : 0 < a) (hb : 0 < b) (hbE : b < 2 ^ (E + 1)) :
    (roundHalfEvenDiv (a * 2 ^ E) b + (2 ^ E - 1)) / 2 ^ E = (a + b - 1) / b := by
  have hPpos : 0 < 2 ^ E := Nat.pos_pow_of_pos E (by norm_num)
  obtain ⟨hup0, hlow0⟩ := rheBounds (a * 2 ^ E) b hb
  have hdm : b * ((a + b - 1) / b) + (a + b - 1) % b = a + b - 1 := Nat.div_add_mod _ _
  have hs : (a + b - 1) % b < b := Nat.mod_lt _ hb
  generalize hgm : roundHalfEvenDiv (a * 2 ^ E) b = m at *
  generalize hgC : (a + b - 1) / b = C at *
  generalize hgs : (a + b - 1) % b = s at *
  have hbZ : (0 : ℤ) < (b : ℤ) := by exact_mod_cast hb
  have hPZ : (0 : ℤ) < (2 : ℤ) ^ E := by positivity
  zify [show 1 ≤ a + b by omega] at hdm
  zify at hup0 hlow0 hs hbE
  rw [pow_succ] at hbE
  have hsw := sandwichInt (m : ℤ) (b : ℤ) ((2 : ℤ) ^ E) (C : ℤ) (a : ℤ) (s : ℤ)
    hbZ hPZ (by linarith) (by linarith) (by linarith) hdm (by positivity) hs
  obtain ⟨hswl, hswu⟩ := hsw
  have h1n : C * 2 ^ E < m + 2 ^ E := by zify; linarith
  have h2n : m ≤ C * 2 ^ E := by zify; linarith
  have hsucc : (C + 1) * 2 ^ E = C * 2 ^ E + 2 ^ E := Nat.succ_mul _ _
  apply Nat.div_eq_of_lt_le
  · omega
  · omega

theorem pyCeilDivNat_eq_ceilDiv (a b : ℕ) (ha : 1 ≤ a) (ha53 : a < 2 ^ 53)
    (hb : 1 ≤ b) (hb53 : b ≤ 2 ^ 53) :
    pyCeilDivNat a b = (a + b - 1) / b := by
  have hbpos : 0 < b := hb
  have hAbig : 2 ^ 1023 ≤ a * 2 ^ 1023 := le_mul_of_one_le_left (by positivity) ha
  have hAub : a * 2 ^ 1023 < 2 ^ 1076 := by
    calc a * 2 ^ 1023 < 2 ^ 53 * 2 ^ 1023 := by
          exact (Nat.mul_lt_mul_right (by positivity)).mpr ha53
    _ = 2 ^ 1076 := by norm_num
  have hQ1 : 1 ≤ a * 2 ^ 1023 / b := (Nat.le_div_iff_mul_le hbpos).mpr (by
    calc 1 * b = b := one_mul b
    _ ≤ 2 ^ 53 := hb53
    _ ≤ 2 ^ 1023 := by norm_num
    _ ≤ a * 2 ^ 1023 := hAbig)
  have hQ0 : a * 2 ^ 1023 / b ≠ 0 := by omega
  have hlow : 2 ^ Nat.log2 (a * 2 ^ 1023 / b) ≤ a * 2 ^ 1023 / b := Nat.log2_self_le hQ0
  have hQA : a * 2 ^ 1023 / b ≤ a * 2 ^ 1023 := Nat.div_le_self _ b
  have ht'ub : Nat.log2 (a * 2 ^ 1023 / b) ≤ 1075 := by
    have := (Nat.log2_lt hQ0).mpr (lt_of_le_of_lt hQA hAub)
    omega
  have hQlb : 2 ^ 970 ≤ a * 2 ^ 1023 / b := (Nat.le_div_iff_mul_le hbpos).mpr (by
    calc 2 ^ 970 * b ≤ 2 ^ 970 * 2 ^ 53 := Nat.mul_le_mul_left _ hb53
    _ = 2 ^ 1023 := by norm_num
    _ ≤ a * 2 ^ 1023 := hAbig)
  have ht'lb : 970 ≤ Nat.log2 (a * 2 ^ 1023 / b) := (Nat.le_log2 hQ0).mpr hQlb
  have hbQ : b * (a * 2 ^ 1023 / b) ≤ a * 2 ^ 1023 := by
    rw [Nat.mul_comm]; exact Nat.div_mul_le_self _ b
  have hbkey : b < 2 ^ (1076 - Nat.log2 (a * 2 ^ 1023 / b)) := by
    have h1 : b * 2 ^ Nat.log2 (a * 2 ^ 1023 / b) ≤ a * 2 ^ 1023 :=
      le_trans (Nat.mul_le_mul (le_refl b) hlow) hbQ
    have h2 : b * 2 ^ Nat.log2 (a * 2 ^ 1023 / b) <
        2 ^ (1076 - Nat.log2 (a * 2 ^ 1023 / b)) * 2 ^ Nat.log2 (a * 2 ^ 1023 / b) := by
      rw [← pow_add, Nat.sub_add_cancel (by omega)]
      exact lt_of_le_of_lt h1 hAub
    exact Nat.lt_of_mul_lt_mul_right h2
  rw [pyCeilDivNat]
  simp only
  rw [if_neg hQ0]
  set t' := Nat.log2 (a * 2 ^ 1023 / b) with ht'
  have hmax : max (((t' : ℤ) - 1023) - 52) (-1074) = (t' : ℤ) - 1075 := by
    rw [max_eq_left (by omega)]
    ring
  rw [hmax]
  by_cases hcase : t' = 1075
  · have hb1 : b = 1 := by
      have := hbkey
      rw [hcase] at this
      norm_num at this
      omega
    rw [if_pos (by omega : (0 : ℤ) ≤ (t' : ℤ) - 1075)]
    have htoz : ((t' : ℤ) - 1075).toNat = 0 := by omega
    rw [htoz, hb1]
    simp [roundHalfEvenDiv, Nat.mod_one, Nat.div_one]
  · have hlt : (t' : ℤ) - 1075 < 0 := by omega
    rw [if_neg (by omega : ¬ (0 : ℤ) ≤ (t' : ℤ) - 1075)]
    have hneg : (-((t' : ℤ) - 1075)).toNat = 1075 - t' := by omega
    rw [hneg]
    apply floatCeilBranch a b (1075 - t') ha hbpos
    have heq : 1075 - t' + 1 = 1076 - t' := by omega
    rw [heq]
    exact hbkey

theorem pyCeilDiv_eq_exact (a b : Int) (ha : 0 < a) (ha53 : a < 2 ^ 53)
    (hb : 1 ≤ b) (hb53 : b ≤ 2 ^ 53) :
    pyCeilDiv a b = exactCeilDiv a b := by
  have hxz : (2 : ℤ) ^ 53 = 9007199254740992 := by norm_num
  have hxn : (2 : ℕ) ^ 53 = 9007199254740992 := by norm_num
  rw [hxz] at ha53 hb53
  have h1 : 1 ≤ a.toNat := by omega
  have h2 : a.toNat < 2 ^ 53 := by rw [hxn]; omega
  have h3 : 1 ≤ b.toNat := by omega
  have h4 : b.toNat ≤ 2 ^ 53 := by rw [hxn]; omega
  rw [pyCeilDiv, pyCeilDivNat_eq_ceilDiv a.toNat b.toNat h1 h2 h3 h4, exactCeilDiv,
    Int.natCast_div]
  congr 1 <;> omega

theorem pyCeilDivNat_above_53 : pyCeilDivNat 9007199254740993 1 = 9007199254740992 := by
  have hN0 : (9007199254740993 * 2 ^ 1023 : ℕ) ≠ 0 := by positivity
  have hlog : Nat.log2 (9007199254740993 * 2 ^ 1023) = 1076 := by
    have h1 := (Nat.le_log2 hN0).mpr
      (show 2 ^ 1076 ≤ 9007199254740993 * 2 ^ 1023 by norm_num)
    have h2 := (Nat.log2_lt hN0).mpr
      (show 9007199254740993 * 2 ^ 1023 < 2 ^ 1077 by norm_num)
    omega
  rw [pyCeilDivNat]
  simp only
  rw [Nat.div_one, if_neg hN0, hlog]
  have hmax : max (((1076 : ℕ) : ℤ) - 1023 - 52) (-1074) = 1 := by decide
  rw [hmax, if_pos (by decide : (0 : ℤ) ≤ 1)]
  have htn : ((1 : ℤ)).toNat = 1 := rfl
  rw [htn]
  decide

theorem lookup_update_self {α : Type} (m : List (List Char × α)) (k : List Char) (v : α) :
    lookupAssoc (updateAssoc m k v) k = some v := by
  induction m with
  | nil => simp [updateAssoc, lookupAssoc]
  | cons h t ih =>
    obtain ⟨k', v'⟩ := h
    by_cases hk : k' = k
    · simp [updateAssoc, lookupAssoc, hk]
    · simp [updateAssoc, lookupAssoc, hk, ih]

theorem lookup_update_ne {α : Type} (m : List (List Char × α)) (k k' : List Char) (v : α)
    (h : k' ≠ k) : lookupAssoc (updateAssoc m k' v) k = lookupAssoc m k := by
  induction m with
  | nil => simp [updateAssoc, lookupAssoc, h]
  | cons hd t ih =>
    obtain ⟨k0, v0⟩ := hd
    by_cases hk : k0 = k'
    · simp [updateAssoc, lookupAssoc, hk, h]
    · simp only [updateAssoc, hk, if_false, lookupAssoc]
      by_cases hk2 : k0 = k
      · simp [hk2]
      · simp [hk2, ih]

/-! Claim C1. -/

/-- C1 counterexample: with the count subprocess reporting 2 ^ 53 + 1
entries and per_page one, the code computes total_pages through binary64
float true-division, whose rounding sends 2 ^ 53 + 1 to 2 ^ 53, so the
stored total_pages is 9007199254740992 while the exact ceiling demanded
by the claim is 9007199254740993. -/
theorem pagination_total_pages_float_counterexample :
    count_total_journal_entries ⟨.ok "9007199254740993".data [] 0, .ok [] [] 0⟩ =
      9007199254740993 ∧
    (get_paginated_journal_logs ⟨.ok "9007199254740993".data [] 0, .ok [] [] 0⟩
      1 1).pagination.total_pages = 9007199254740992 ∧
    max 1 ⌈((9007199254740993 : Int) : ℚ) / ((1 : Int) : ℚ)⌉ = 9007199254740993 := by
  have hc : count_total_journal_entries ⟨.ok "9007199254740993".data [] 0, .ok [] [] 0⟩ =
      9007199254740993 := by decide
  refine ⟨hc, ?_, ?_⟩
  · have hpy : pyCeilDiv 9007199254740993 1 = 9007199254740992 := by
      rw [pyCeilDiv, show ((9007199254740993 : ℤ)).toNat = 9007199254740993 from rfl,
          show ((1 : ℤ)).toNat = 1 from rfl, pyCeilDivNat_above_53]
      norm_num
    have hred : (get_paginated_journal_logs ⟨.ok "9007199254740993".data [] 0, .ok [] [] 0⟩
        1 1).pagination.total_pages =
        (if count_total_journal_entries ⟨.ok "9007199254740993".data [] 0, .ok [] [] 0⟩ > 0
          then pyCeilDiv
            (count_total_journal_entries ⟨.ok "9007199254740993".data [] 0, .ok [] [] 0⟩)
            (max 1 1)
          else 1) := rfl
    rw [hred, hc, if_pos (by norm_num : (9007199254740993 : Int) > 0),
      show max (1 : Int) 1 = 1 from rfl, hpy]
  · rw [show ((1 : Int) : ℚ) = 1 from rfl, div_one,
      show ((9007199254740993 : Int) : ℚ) = ((9007199254740993 : Int) : ℚ) from rfl,
      Int.ceil_intCast]
    norm_num

/-- C1 amended: for every call to get_paginated_journal_logs with integer
page at least one and per_page at least one that completes without an
exception, the pagination metadata satisfies has_prev iff page exceeds
one, has_next iff page is below total_pages, total_logs equal to the
count obtained for the request, and, whenever that count is below 2 ^ 53
and per_page is at most 2 ^ 53 so that the binary64 float division
computes the exact ceiling, total_pages equal to the maximum of one and
the ceiling of total_logs over per_page; for a zero count the result has
one total page and has_next false for every requested page.  Beyond
2 ^ 53 the float computation diverges from the exact ceiling, as the
counterexample shows. -/
theorem pagination_metadata_formulas (env : PagEnv) (page per_page : Int)
    (out err : List Char) (code : Int)
    (hp : 1 ≤ page) (hpp : 1 ≤ per_page)
    (hslice : env.sliceRun = .ok out err code) :
    (get_paginated_journal_logs env page per_page).pagination.total_logs =
      count_total_journal_entries env ∧
    (count_total_journal_entries env < 2 ^ 53 → per_page ≤ 2 ^ 53 →
      (get_paginated_journal_logs env page per_page).pagination.total_pages =
        max 1 ⌈(count_total_journal_entries env : ℚ) / (per_page : ℚ)⌉) ∧
    (get_paginated_journal_logs env page per_page).pagination.has_prev =
      decide (page > 1) ∧
    (get_paginated_journal_logs env page per_page).pagination.has_next =
      decide (page < (get_paginated_journal_logs env page per_page).pagination.total_pages) ∧
    (count_total_journal_entries env = 0 →
      (get_paginated_journal_logs env page per_page).pagination.total_pages = 1 ∧
      (get_paginated_journal_logs env page per_page).pagination.has_next = false) := by
  have hpage : max 1 page = page := max_eq_right hp
  have hppx : max 1 per_page = per_page := max_eq_right hpp
  have hppq : (0 : ℚ) < (per_page : ℚ) := by exact_mod_cast (by omega : (0 : Int) < per_page)
  refine ⟨?_, ?_, ?_, ?_, ?_⟩
  · simp [get_paginated_journal_logs, hslice]
  · intro hT53 hpp53
    simp only [get_paginated_journal_logs, hslice, hpage, hppx]
    by_cases hT : count_total_journal_entries env > 0
    · rw [if_pos hT, pyCeilDiv_eq_exact _ _ hT hT53 hpp hpp53,
        exactCeilDiv_eq_ceil _ _ (by omega)]
      have hpos : 0 < ⌈(count_total_journal_entries env : ℚ) / (per_page : ℚ)⌉ :=
        Int.ceil_pos.mpr (div_pos (by exact_mod_cast hT) hppq)
      exact (max_eq_right (by omega)).symm
    · rw [if_neg hT]
      have hle : ((count_total_journal_entries env : Int) : ℚ) ≤ ((0 : Int) : ℚ) := by
        exact_mod_cast (by omega : count_total_journal_entries env ≤ 0)
      have : ⌈(count_total_journal_entries env : ℚ) / (per_page : ℚ)⌉ ≤ 0 := by
        calc ⌈(count_total_journal_entries env : ℚ) / (per_page : ℚ)⌉
            ≤ ⌈(0 : ℚ)⌉ := Int.ceil_mono (div_nonpos_of_nonpos_of_nonneg (by simpa using hle) hppq.le)
        _ = 0 := Int.ceil_zero
      exact (max_eq_left (by omega)).symm
  · simp [get_paginated_journal_logs, hslice, hpage]
  · simp [get_paginated_journal_logs, hslice, hpage, hppx]
  · intro hT0
    have hlt : ¬ (page < 1) := by omega
    constructor
    · simp [get_paginated_journal_logs, hslice, hpage, hppx, hT0]
    · simp [get_paginated_journal_logs, hslice, hpage, hppx, hT0, hlt]

/-- Witness for C1 at a concrete environment and page values, with the
small-count hypotheses of the total_pages formula discharged. -/
theorem pagination_metadata_formulas_witness :
    (get_paginated_journal_logs ⟨.ok "7".data [] 0, .ok [] [] 0⟩ 2 3).pagination.total_logs =
      count_total_journal_entries ⟨.ok "7".data [] 0, .ok [] [] 0⟩ ∧
    (get_paginated_journal_logs ⟨.ok "7".data [] 0, .ok [] [] 0⟩ 2 3).pagination.total_pages =
      max 1 ⌈(count_total_journal_entries ⟨.ok "7".data [] 0, .ok [] [] 0⟩ : ℚ) / ((3 : Int) : ℚ)⌉ ∧
    (get_paginated_journal_logs ⟨.ok "7".data [] 0, .ok [] [] 0⟩ 2 3).pagination.has_prev =
      decide ((2 : Int) > 1) ∧
    (get_paginated_journal_logs ⟨.ok "7".data [] 0, .ok [] [] 0⟩ 2 3).pagination.has_next =
      decide ((2 : Int) <
        (get_paginated_journal_logs ⟨.ok "7".data [] 0, .ok [] [] 0⟩ 2 3).pagination.total_pages) ∧
    (count_total_journal_entries ⟨.ok "7".data [] 0, .ok [] [] 0⟩ = 0 →
      (get_paginated_journal_logs ⟨.ok "7".data [] 0, .ok [] [] 0⟩ 2 3).pagination.total_pages = 1 ∧
      (get_paginated_journal_logs ⟨.ok "7".data [] 0, .ok [] [] 0⟩ 2 3).pagination.has_next = false) :=
  have h := pagination_metadata_formulas ⟨.ok "7".data [] 0, .ok [] [] 0⟩ 2 3 [] [] 0
    (by norm_num) (by norm_num) rfl
  ⟨h.1,
   h.2.1
     (by rw [show count_total_journal_entries ⟨.ok "7".data [] 0, .ok [] [] 0⟩ = 7 from rfl]
         norm_num)
     (by norm_num),
   h.2.2.1, h.2.2.2.1, h.2.2.2.2⟩

/-! Claim C2. -/

/-- C2 counterexample: in this environment the counting step raises (its
outcome is an exception) while the slicing step succeeds with one
journal line; the returned result has a nonempty log list and no error
field, refuting the claim that any exception during the count step
yields a zero-result with the error field set. -/
theorem count_exception_not_zero_result :
    (get_paginated_journal_logs
      ⟨.exn "boom".data,
       .ok "Jan 05 10:15:32 myhost myproc[123]: started ok".data [] 0⟩ 1 50).logs ≠ [] ∧
    (get_paginated_journal_logs
      ⟨.exn "boom".data,
       .ok "Jan 05 10:15:32 myhost myproc[123]: started ok".data [] 0⟩ 1 50).error = none := by
  decide

/-- C2 amended: the paginator never propagates an exception; an exception
raised by the slicing step yields the zero-result dictionary with empty
logs and the error field set, while an exception raised inside the
counting step is absorbed by count_total_journal_entries itself, which
returns zero, after which pagination proceeds normally. -/
theorem paginator_exception_behaviour (env : PagEnv) (page per_page : Int) (msg : List Char) :
    (env.sliceRun = .exn msg →
      (get_paginated_journal_logs env page per_page).logs = [] ∧
      (get_paginated_journal_logs env page per_page).log_count = 0 ∧
      (get_paginated_journal_logs env page per_page).error = some msg) ∧
    (env.countRun = .exn msg → count_total_journal_entries env = 0) := by
  constructor
  · intro h
    simp [get_paginated_journal_logs, h]
  · intro h
    simp [count_total_journal_entries, h]

/-- Witness for C2 at a concrete environment whose two steps both raise. -/
theorem paginator_exception_behaviour_witness :
    ((get_paginated_journal_logs ⟨.exn "x".data, .exn "x".data⟩ 1 1).logs = [] ∧
     (get_paginated_journal_logs ⟨.exn "x".data, .exn "x".data⟩ 1 1).log_count = 0 ∧
     (get_paginated_journal_logs ⟨.exn "x".data, .exn "x".data⟩ 1 1).error = some "x".data) ∧
    count_total_journal_entries ⟨.exn "x".data, .exn "x".data⟩ = 0 :=
  ⟨(paginator_exception_behaviour ⟨.exn "x".data, .exn "x".data⟩ 1 1 "x".data).1 rfl,
   (paginator_exception_behaviour ⟨.exn "x".data, .exn "x".data⟩ 1 1 "x".data).2 rfl⟩

/-! Claim C6. -/

theorem waitPollFrom_true_iff (poll : Nat → List Char) (desired : List Char) :
    ∀ r e, (waitPollFrom poll desired r e).1 = true ↔
      ∃ k, e ≤ k ∧ k < e + r ∧ pyStrip (poll k) = desired := by
  intro r
  induction r with
  | zero =>
    intro e
    simp only [waitPollFrom]
    constructor
    · intro h; exact absurd h (by simp)
    · rintro ⟨k, hk1, hk2, _⟩; omega
  | succ n ih =>
    intro e
    simp only [waitPollFrom]
    by_cases h : pyStrip (poll e) = desired
    · simp only [h, if_pos rfl]
      exact ⟨fun _ => ⟨e, le_refl e, by omega, h⟩, fun _ => rfl⟩
    · rw [if_neg h, ih (e + 1)]
      constructor
      · rintro ⟨k, hk1, hk2, hk3⟩; exact ⟨k, by omega, by omega, hk3⟩
      · rintro ⟨k, hk1, hk2, hk3⟩
        refine ⟨k, ?_, by omega, hk3⟩
        rcases Nat.eq_or_lt_of_le hk1 with heq | hlt
        · exact absurd (heq ▸ hk3) h
        · omega

theorem waitPollFrom_false (poll : Nat → List Char) (desired : List Char) :
    ∀ r e, (∀ k, e ≤ k → k < e + r → pyStrip (poll k) ≠ desired) →
      waitPollFrom poll desired r e = (false, e + r) := by
  intro r
  induction r with
  | zero => intro e _; simp [waitPollFrom]
  | succ n ih =>
    intro e hall
    simp only [waitPollFrom]
    rw [if_neg (hall e (le_refl e) (by omega))]
    rw [ih (e + 1) (fun k hk1 hk2 => hall k (by omega) (by omega))]
    congr 1
    omega

/-- C6: under the idealised one-second-per-iteration clock of the model,
wait_for_service_state returns true iff some is-active poll performed at
an elapsed time below the timeout strips to exactly the desired state,
and when no poll matches it returns false with elapsed time exactly the
timeout; in particular with a timeout of two seconds and no matching
poll it returns false after two seconds, not earlier and not later. -/
theorem wait_for_state_poll_semantics (poll : Nat → List Char) (desired : List Char)
    (timeout : Nat) :
    ((wait_for_service_state poll desired timeout).1 = true ↔
      ∃ k, k < timeout ∧ pyStrip (poll k) = desired) ∧
    ((∀ k, k < timeout → pyStrip (poll k) ≠ desired) →
      wait_for_service_state poll desired timeout = (false, timeout)) := by
  constructor
  · unfold wait_for_service_state
    rw [waitPollFrom_true_iff]
    constructor
    · rintro ⟨k, _, hk2, hk3⟩; exact ⟨k, by omega, hk3⟩
    · rintro ⟨k, hk1, hk2⟩; exact ⟨k, by omega, by omega, hk2⟩
  · intro h
    unfold wait_for_service_state
    have := waitPollFrom_false poll desired timeout 0
      (fun k hk1 hk2 => h k (by omega))
    simpa using this

/-- Witness for C6: a poll that always reports inactive, a desired state
of active and the timeout of the specification scenario. -/
theorem wait_for_state_poll_semantics_witness :
    ((wait_for_service_state (fun _ => "inactive\n".data) "active".data 2).1 = true ↔
      ∃ k, k < 2 ∧ pyStrip ((fun _ => "inactive\n".data : Nat → List Char) k) = "active".data) ∧
    wait_for_service_state (fun _ => "inactive\n".data) "active".data 2 = (false, 2) :=
  ⟨(wait_for_state_poll_semantics (fun _ => "inactive\n".data) "active".data 2).1,
   (wait_for_state_poll_semantics (fun _ => "inactive\n".data) "active".data 2).2
     (by decide)⟩

/-! Claim C7. -/

/-- C7: for every service whose LoadState probe does not report not-found
but whose status command exits non-zero, get_service_status returns a
non-error minimal record with running false and active_raw inactive,
carrying the probe-derived enabled and boot_status fields. -/
theorem status_nonzero_exit_minimal_record (env : StatusEnv)
    (hnf : pyIn "not-found".data (pyLower env.loadstate_stdout) = false)
    (hcode : env.status_code ≠ 0) :
    get_service_status env = .ok
      { running := false
        enabled := pyIn "enabled".data (pyLower env.isenabled_stdout)
        boot_status := some (pyStrip env.isenabled_stdout)
        active_raw := some "inactive".data
        loaded_raw := none, started_at := none, uptime := none
        pid := none, tasks := none, memory := none, cpu_usage := none } := by
  simp [get_service_status, hnf, hcode]

/-- Witness for C7 at a concrete environment. -/
theorem status_nonzero_exit_minimal_record_witness :
    get_service_status ⟨[], 3, "LoadState=loaded\n".data, "enabled\n".data⟩ = .ok
      { running := false
        enabled := pyIn "enabled".data (pyLower ("enabled\n".data))
        boot_status := some (pyStrip ("enabled\n".data))
        active_raw := some "inactive".data
        loaded_raw := none, started_at := none, uptime := none
        pid := none, tasks := none, memory := none, cpu_usage := none } :=
  status_nonzero_exit_minimal_record ⟨[], 3, "LoadState=loaded\n".data, "enabled\n".data⟩
    (by decide) (by decide)

/-! Claim C10. -/

/-- C10 counterexample: with the is-enabled probe printing disabled and
the status command exiting non-zero, the returned record has enabled
false (the claim asserts enabled true on the stated ground that disabled
contains enabled as a substring, which is not the case in Python). -/
theorem disabled_probe_counterexample :
    get_service_status ⟨[], 3, "LoadState=loaded\n".data, "disabled\n".data⟩ = .ok
      { running := false
        enabled := false
        boot_status := some "disabled".data
        active_raw := some "inactive".data
        loaded_raw := none, started_at := none, uptime := none
        pid := none, tasks := none, memory := none, cpu_usage := none } := by
  decide

/-- C10 amended: the probe-derived enabled flag is computed as substring
containment of enabled in the lowercased is-enabled output; since the
string disabled does not contain enabled as a substring, for every
service whose is-enabled probe outputs disabled and whose status command
exits non-zero, the returned record has enabled false while boot_status
is disabled. -/
theorem disabled_probe_enabled_false (env : StatusEnv)
    (hnf : pyIn "not-found".data (pyLower env.loadstate_stdout) = false)
    (hcode : env.status_code ≠ 0)
    (hen : env.isenabled_stdout = "disabled\n".data) :
    get_service_status env = .ok
      { running := false
        enabled := pyIn "enabled".data (pyLower env.isenabled_stdout)
        boot_status := some "disabled".data
        active_raw := some "inactive".data
        loaded_raw := none, started_at := none, uptime := none
        pid := none, tasks := none, memory := none, cpu_usage := none } ∧
    pyIn "enabled".data (pyLower env.isenabled_stdout) = false := by
  constructor
  · rw [show (some "disabled".data : Option (List Char)) =
        some (pyStrip env.isenabled_stdout) by rw [hen]; decide]
    simp [get_service_status, hnf, hcode]
  · rw [hen]
    decide

/-- Witness for C10 at a concrete environment. -/
theorem disabled_probe_enabled_false_witness :
    get_service_status ⟨"whatever".data, 1, "LoadState=loaded\n".data, "disabled\n".data⟩ = .ok
      { running := false
        enabled := pyIn "enabled".data (pyLower ("disabled\n".data))
        boot_status := some "disabled".data
        active_raw := some "inactive".data
        loaded_raw := none, started_at := none, uptime := none
        pid := none, tasks := none, memory := none, cpu_usage := none } ∧
    pyIn "enabled".data (pyLower ("disabled\n".data)) = false :=
  disabled_probe_enabled_false
    ⟨"whatever".data, 1, "LoadState=loaded\n".data, "disabled\n".data⟩
    (by decide) (by decide) rfl

/-! Claim C8. -/

/-- C8: the per-line journal parser tries the main pattern and then the
alternative pattern, first match wins, and a line matching neither
pattern yields an entry containing only the raw line; the concrete line
of the specification scenario parses into its four fields. -/
theorem journal_line_parsing (line : List Char) :
    parseLogLine "Jan 05 10:15:32 myhost myproc[123]: started ok".data =
      { raw := "Jan 05 10:15:32 myhost myproc[123]: started ok".data
        timestamp := some "Jan 05 10:15:32".data
        hostname := some "myhost".data
        process := some "myproc[123]".data
        message := some "started ok".data } ∧
    (∀ t h p m, matchJournalLineMain line = some (t, h, p, m) →
      parseLogLine line =
        { raw := line, timestamp := some t, hostname := some h
          process := some p, message := some m }) ∧
    (matchJournalLineMain line = none → ∀ t m, matchJournalLineAlt line = some (t, m) →
      parseLogLine line =
        { raw := line, timestamp := some t, hostname := none
          process := none, message := some m }) ∧
    (matchJournalLineMain line = none → matchJournalLineAlt line = none →
      parseLogLine line =
        { raw := line, timestamp := none, hostname := none
          process := none, message := none }) := by
  refine ⟨by decide, ?_, ?_, ?_⟩
  · intro t h p m hm
    simp [parseLogLine, hm]
  · intro hm t m hma
    simp [parseLogLine, hm, hma]
  · intro hm hma
    simp [parseLogLine, hm, hma]

/-- Witness for C8: a line matching neither pattern and a line matching
only the alternative pattern. -/
theorem journal_line_parsing_witness :
    parseLogLine "hello there".data =
      { raw := "hello there".data, timestamp := none, hostname := none
        process := none, message := none } ∧
    parseLogLine "Jan 05 10:15:32 some message".data =
      { raw := "Jan 05 10:15:32 some message".data
        timestamp := some "Jan 05 10:15:32".data, hostname := none
        process := none, message := some "some message".data } :=
  ⟨(journal_line_parsing "hello there".data).2.2.2 (by decide) (by decide),
   (journal_line_parsing "Jan 05 10:15:32 some message".data).2.2.1 (by decide)
     "Jan 05 10:15:32".data "some message".data (by decide)⟩

/-! Splitting lemmas shared by the unit-file and metadata claims. -/

theorem pySplitOnce_shape (sep : Char) :
    ∀ (line a b : List Char), pySplitOnce sep line = some (a, b) → line = a ++ sep :: b := by
  intro line
  induction line with
  | nil => intro a b h; simp [pySplitOnce] at h
  | cons c rest ih =>
    intro a b h
    by_cases hc : c = sep
    · subst hc
      simp [pySplitOnce] at h
      rw [h.1, ← h.2]
      simp
    · simp only [pySplitOnce, if_neg hc, Option.map_eq_some'] at h
      obtain ⟨⟨a', b'⟩, hrec, heq⟩ := h
      obtain ⟨ha, hb⟩ := Prod.mk.injEq .. ▸ heq
      simp only at ha hb
      rw [← ha, ← hb, ih a' b' hrec]
      simp

theorem pySplitOnce_append (sep : Char) :
    ∀ (a b : List Char), pySplitOnce sep a = none → pySplitOnce sep (a ++ sep :: b) = some (a, b) := by
  intro a
  induction a with
  | nil => intro b _; simp [pySplitOnce]
  | cons c rest ih =>
    intro b h
    by_cases hc : c = sep
    · subst hc; simp [pySplitOnce] at h
    · simp only [pySplitOnce, if_neg hc, Option.map_eq_none'] at h
      have hr := ih b h
      simp only [List.cons_append, pySplitOnce, if_neg hc]
      rw [show rest.append (sep :: b) = rest ++ sep :: b from rfl, hr]
      rfl

/-! Claim C5. -/

/-- C5: in the unit-file parser, a first Environment line inside the
Service section produces a one-element list (never a bare string), later
Environment lines inside Service append to that list in order, every
other key of the Service section is written as a plain string whose
update overwrites any previous binding (last write wins), and the
concrete round-trip scenarios evaluate accordingly. -/
theorem unit_file_environment_list_semantics :
    (∀ st : UFState, st.current = some "Service".data →
      lookupAssoc st.serviceSec "Environment".data = none →
      config_process_line st "Environment=FOO=bar".data =
        some { st with
          serviceSec := updateAssoc st.serviceSec "Environment".data (.listv ["FOO=bar".data]) }) ∧
    (∀ (st : UFState) (vs : List (List Char)), st.current = some "Service".data →
      lookupAssoc st.serviceSec "Environment".data = some (.listv vs) →
      config_process_line st "Environment=FOO2=baz".data =
        some { st with
          serviceSec :=
            updateAssoc st.serviceSec "Environment".data (.listv (vs ++ ["FOO2=baz".data])) }) ∧
    (∀ (st : UFState) (line k v : List Char), st.current = some "Service".data →
      pyStrip line = line → line.head? ≠ some '#' → matchSectionHeader line = none →
      pySplitOnce '=' line = some (k, v) →
      "X-Metadata-".data.isPrefixOf (pyStrip k) = false →
      pyStrip k ≠ "Environment".data →
      config_process_line st line =
        some { st with
          serviceSec := updateAssoc st.serviceSec (pyStrip k) (.str (processValue v)) }) ∧
    (∀ (m : List (List Char × ConfVal)) (k : List Char) (v : ConfVal),
      lookupAssoc (updateAssoc m k v) k = some v) ∧
    (get_service_config_parse "[Service]\nEnvironment=FOO=bar\n".data =
      some ⟨some "Service".data, [], [("Environment".data, .listv ["FOO=bar".data])], [], []⟩) ∧
    (get_service_config_parse "[Service]\nEnvironment=A=1\nEnvironment=B=2\n".data =
      some ⟨some "Service".data, [],
        [("Environment".data, .listv ["A=1".data, "B=2".data])], [], []⟩) ∧
    (get_service_config_parse "[Service]\nType=simple\nType=forking\n".data =
      some ⟨some "Service".data, [], [("Type".data, .str "forking".data)], [], []⟩) := by
  refine ⟨?_, ?_, ?_, fun m k v => lookup_update_self m k v, by decide, by decide, by decide⟩
  · intro st hcur hlook
    unfold config_process_line
    rw [hcur, hlook]
    rfl
  · intro st vs hcur hlook
    unfold config_process_line
    rw [hcur, hlook]
    rfl
  · intro st line k v hcur hstrip hhash hhdr hsplit hmeta henv
    have hne : line ≠ [] := by
      rw [pySplitOnce_shape '=' line k v hsplit]; simp
    unfold config_process_line
    rw [hstrip]
    simp only []
    rw [if_neg (by
      simp only [List.isEmpty_iff]
      push_neg
      exact ⟨hne, hhash⟩)]
    rw [hhdr, hcur, hsplit]
    simp only []
    rw [if_neg (by simp [hmeta])]
    rw [if_neg (by
      rintro ⟨-, hk⟩
      exact henv hk)]
    simp

/-- Witness for C5 at concrete parser states and a concrete line for each
universally quantified conjunct. -/
theorem unit_file_environment_list_semantics_witness :
    (config_process_line ⟨some "Service".data, [], [], [], []⟩ "Environment=FOO=bar".data =
      some { (⟨some "Service".data, [], [], [], []⟩ : UFState) with
        serviceSec := updateAssoc [] "Environment".data (.listv ["FOO=bar".data]) }) ∧
    (config_process_line
        ⟨some "Service".data, [], [("Environment".data, ConfVal.listv ["FOO=bar".data])], [], []⟩
        "Environment=FOO2=baz".data =
      some { (⟨some "Service".data, [],
          [("Environment".data, ConfVal.listv ["FOO=bar".data])], [], []⟩ : UFState) with
        serviceSec := updateAssoc [("Environment".data, ConfVal.listv ["FOO=bar".data])]
            "Environment".data (.listv (["FOO=bar".data] ++ ["FOO2=baz".data])) }) ∧
    (config_process_line ⟨some "Service".data, [], [], [], []⟩ "Type=simple".data =
      some { (⟨some "Service".data, [], [], [], []⟩ : UFState) with
        serviceSec := updateAssoc [] (pyStrip "Type".data) (.str (processValue "simple".data)) }) ∧
    lookupAssoc (updateAssoc [] "Type".data (ConfVal.str "simple".data)) "Type".data =
      some (ConfVal.str "simple".data) :=
  ⟨(unit_file_environment_list_semantics).1 ⟨some "Service".data, [], [], [], []⟩ rfl rfl,
   (unit_file_environment_list_semantics).2.1
     ⟨some "Service".data, [], [("Environment".data, ConfVal.listv ["FOO=bar".data])], [], []⟩
     ["FOO=bar".data] rfl (by decide),
   (unit_file_environment_list_semantics).2.2.1 ⟨some "Service".data, [], [], [], []⟩
     "Type=simple".data "Type".data "simple".data rfl (by decide) (by decide) (by decide)
     (by decide) (by decide) (by decide),
   (unit_file_environment_list_semantics).2.2.2.1 [] "Type".data (ConfVal.str "simple".data)⟩

/-! Claim C4. -/

theorem pySplitlines_single (line : List Char) (hne : line ≠ [])
    (hnl : ∀ c ∈ line, c ≠ '\n') : pySplitlines line = [line] := by
  induction line with
  | nil => exact absurd rfl hne
  | cons c rest ih =>
    have hc : c ≠ '\n' := hnl c (by simp)
    simp only [pySplitlines, if_neg hc]
    cases hr : rest with
    | nil => simp [pySplitlines]
    | cons d t =>
      rw [← hr, ih (by simp [hr]) (fun x hx => hnl x (by simp [hx]))]

/-- C4 counterexample: a leaf is written for key a, and the next line
uses a as an intermediate path segment; the function raises a TypeError
(modelled as none) instead of silently overwriting the leaf into a map
and returning a nested mapping. -/
theorem metadata_collision_raises :
    parse_x_metadata_lines "X-Metadata-A=foo\nX-Metadata-A_B=bar\n".data = none := by
  rfl

/-- C4 amended: the metadata parser lower-cases each key, splits it on
underscores and builds an arbitrarily deep nested map whose last path
segment is a leaf string with quotes removed; but for every input in
which an intermediate path segment collides with a previously written
leaf string, the insertion raises a TypeError (the next loop iteration
operates on a string), so the function propagates an exception instead
of overwriting the leaf; only the reverse collision, a leaf written at a
path currently holding a map, silently overwrites. -/
theorem metadata_nested_build_behaviour :
    (∀ (m : List (List Char × MVal)) (k s : List Char) (ks : List (List Char)) (v : List Char),
      lookupAssoc m k = some (.leaf s) → ks ≠ [] → metaInsert m (k :: ks) v = none) ∧
    (∀ (kp v : List Char), pySplitOnce '=' kp = none →
      (∀ c ∈ kp, c ≠ '\n') → (∀ c ∈ v, c ≠ '\n') →
      pyStrip ("X-Metadata-".data ++ (kp ++ '=' :: v)) = "X-Metadata-".data ++ (kp ++ '=' :: v) →
      parse_x_metadata_lines ("X-Metadata-".data ++ (kp ++ '=' :: v)) =
        metaInsert [] (pySplit '_' (pyLower kp)) v) ∧
    (parse_x_metadata_lines "X-Metadata-VM_Host_Name=\"abc\"\n".data =
      some [("vm".data, .node [("host".data, .node [("name".data, .leaf "abc".data)])])]) ∧
    (parse_x_metadata_lines "X-Metadata-A_B=bar\nX-Metadata-A=foo\n".data =
      some [("a".data, .leaf "foo".data)]) := by
  refine ⟨?_, ?_, by rfl, by rfl⟩
  · intro m k s ks v hlook hne
    cases ks with
    | nil => exact absurd rfl hne
    | cons k2 kt => simp [metaInsert, hlook]
  · intro kp v hkp hnlk hnlv hstrip
    have hline : ("X-Metadata-".data ++ (kp ++ '=' :: v)) ≠ [] := by simp
    have hnl : ∀ c ∈ ("X-Metadata-".data ++ (kp ++ '=' :: v)), c ≠ '\n' := by
      intro c hc
      rcases List.mem_append.mp hc with h | h
      · exact (show ∀ x ∈ "X-Metadata-".data, x ≠ '\n' by decide) c h
      · rcases List.mem_append.mp h with h2 | h2
        · exact hnlk c h2
        · rcases List.mem_cons.mp h2 with h3 | h3
          · subst h3; decide
          · exact hnlv c h3
    unfold parse_x_metadata_lines
    rw [pySplitlines_single _ hline hnl]
    simp only [List.foldlM, hstrip]
    rw [show ("X-Metadata-".data.isPrefixOf
          ("X-Metadata-".data ++ (kp ++ '=' :: v))) = true from
        List.isPrefixOf_iff_prefix.mpr (List.prefix_append _ _)]
    rw [show ("X-Metadata-".data ++ (kp ++ '=' :: v)).drop 11 = kp ++ '=' :: v from
        List.drop_left' (by decide)]
    rw [pySplitOnce_append '=' kp v hkp]
    simp only [if_true]
    cases hmi : metaInsert [] (pySplit '_' (pyLower kp)) v with
    | none => simp
    | some m => simp

/-- Witness for C4 at a concrete collision state and a concrete single
metadata line. -/
theorem metadata_nested_build_behaviour_witness :
    metaInsert [("a".data, MVal.leaf "foo".data)] ["a".data, "b".data] "bar".data = none ∧
    parse_x_metadata_lines ("X-Metadata-".data ++ ("Owner_Name".data ++ '=' :: "\"Bob\"".data)) =
      metaInsert [] (pySplit '_' (pyLower "Owner_Name".data)) "\"Bob\"".data :=
  ⟨(metadata_nested_build_behaviour).1 [("a".data, MVal.leaf "foo".data)] "a".data
     "foo".data ["b".data] "bar".data rfl (by simp),
   (metadata_nested_build_behaviour).2.1 "Owner_Name".data "\"Bob\"".data (by decide)
     (by decide) (by decide) (by decide)⟩

/-! Claim C3. -/

theorem searchLit_of_chomp {α : Type} (lit : List Char) (k : List Char → Option α)
    (c : Char) (t rest : List Char) (a : α)
    (hch : chompLit lit (c :: t) = some rest) (hk : k rest = some a) :
    searchLit lit k (c :: t) = some a := by
  simp only [searchLit, hch, hk]

theorem searchLit_skip {α : Type} (lit : List Char) (k : List Char → Option α) :
    ∀ (pre body : List Char),
      (∀ j, j < pre.length → lit.isPrefixOf (List.drop j (pre ++ body)) = false) →
      searchLit lit k (pre ++ body) = searchLit lit k body := by
  intro pre
  induction pre with
  | nil => intro body _; rfl
  | cons c pre2 ih =>
    intro body hno
    have h0 : lit.isPrefixOf (c :: (pre2 ++ body)) = false := by
      have := hno 0 (by simp)
      rw [List.drop_zero, List.cons_append] at this
      exact this
    have hch : chompLit lit (c :: (pre2 ++ body)) = none := by
      have hcond : ¬ (lit.isPrefixOf (c :: (pre2 ++ body)) = true) := by
        intro hcon
        rw [h0] at hcon
        exact Bool.false_ne_true hcon
      unfold chompLit
      rw [if_neg hcond]
    rw [List.cons_append]
    simp only [searchLit, hch]
    exact ih body (fun j hj => by
      have := hno (j + 1) (by simp; omega)
      simpa using this)

theorem searchLit_found {α : Type} (lit rest : List Char) (k : List Char → Option α) (a : α)
    (hlit : lit ≠ []) (hk : k rest = some a) :
    searchLit lit k (lit ++ rest) = some a := by
  have hch : chompLit lit (lit ++ rest) = some rest := by
    unfold chompLit
    rw [if_pos (List.isPrefixOf_iff_prefix.mpr (List.prefix_append _ _))]
    rw [List.drop_left]
  cases lit with
  | nil => exact absurd rfl hlit
  | cons c lt =>
    rw [List.cons_append] at hch ⊢
    exact searchLit_of_chomp _ _ _ _ _ _ hch hk

/-- The Active line of the specification scenario. -/
def activeLineC3 : List Char :=
  "Active: active (running) since Mon 2024-01-01 10:00:00 UTC; 2h 15min ago".data

/-- The field captured from the scenario line by the Active regex. -/
def sinceTail : List Char :=
  "active (running) since Mon 2024-01-01 10:00:00 UTC; 2h 15min ago".data

theorem searchActive_scenario (pre suf : List Char)
    (hpre : ∀ j, j < pre.length →
      "Active:".data.isPrefixOf (List.drop j (pre ++ (activeLineC3 ++ suf))) = false)
    (hsuf : suf = [] ∨ suf.head? = some '\n') :
    searchLabelLine "Active:".data (pre ++ (activeLineC3 ++ suf)) = some sinceTail := by
  unfold searchLabelLine
  rw [searchLit_skip "Active:".data _ pre (activeLineC3 ++ suf) hpre]
  have hdecomp : activeLineC3 ++ suf = "Active:".data ++ (' ' :: (sinceTail ++ suf)) := by
    rw [show activeLineC3 = "Active:".data ++ (' ' :: sinceTail) from by decide]
    simp
  rw [hdecomp]
  apply searchLit_found _ _ _ _ (by decide)
  have ht59 : sinceTail ++ suf =
      'a' :: ("ctive (running) since Mon 2024-01-01 10:00:00 UTC; 2h 15min ago".data ++ suf) := by
    rw [show sinceTail =
      'a' :: "ctive (running) since Mon 2024-01-01 10:00:00 UTC; 2h 15min ago".data from by decide]
    rfl
  have htw : ((' ' :: (sinceTail ++ suf)).takeWhile pyIsSpace).length = 1 := by
    rw [List.takeWhile_cons, if_pos (by decide), ht59, List.takeWhile_cons, if_neg (by decide)]
    rfl
  show wsThenLineAt (' ' :: (sinceTail ++ suf))
    ((' ' :: (sinceTail ++ suf)).takeWhile pyIsSpace).length = some sinceTail
  rw [htw]
  simp only [wsThenLineAt, List.drop_succ_cons, List.drop_zero, ht59, List.head?_cons]
  rw [if_pos (by decide)]
  rw [← ht59,
    @List.takeWhile_append_of_pos Char (fun d => decide (d ≠ '\n')) sinceTail suf (by decide)]
  rcases hsuf with h | h
  · subst h
    simp
  · cases suf with
    | nil => simp at h
    | cons c t =>
      have hc : c = '\n' := by simpa using h
      subst hc
      rw [List.takeWhile_cons, if_neg (by decide)]
      simp

/-- C3 counterexample: on a status text consisting exactly of the line of
the specification scenario, get_service_status strips the captured uptime
group, producing 2h 15min without the trailing space asserted by the
claim. -/
theorem uptime_trailing_space_counterexample :
    get_service_status
      ⟨activeLineC3 ++ ['\n'], 0, "LoadState=loaded\n".data, "enabled\n".data⟩ = .ok
      { running := true
        enabled := true
        boot_status := some "enabled".data
        active_raw := some sinceTail
        loaded_raw := none
        started_at := some "Mon 2024-01-01 10:00:00 UTC".data
        uptime := some "2h 15min".data
        pid := none, tasks := none, memory := none, cpu_usage := none } ∧
    "2h 15min".data ≠ "2h 15min ".data := by
  constructor
  · decide
  · decide

/-- C3 amended: for every status text containing the scenario line as its
first Active occurrence (with exit code zero and the unit not reported
not-found), get_service_status reports running true, started_at the
captured timestamp, and uptime 2h 15min with the captured duration group
stripped of surrounding whitespace; and for every status text whose
Active line has no since-semicolon-ago shape, started_at and uptime are
both left unset. -/
theorem status_active_since_extraction :
    (∀ (pre suf : List Char) (env : StatusEnv),
      env.status_stdout = pre ++ (activeLineC3 ++ suf) →
      (∀ j, j < pre.length →
        "Active:".data.isPrefixOf (List.drop j (pre ++ (activeLineC3 ++ suf))) = false) →
      (suf = [] ∨ suf.head? = some '\n') →
      pyIn "not-found".data (pyLower env.loadstate_stdout) = false →
      env.status_code = 0 →
      ∃ s, get_service_status env = .ok s ∧ s.running = true ∧
        s.started_at = some "Mon 2024-01-01 10:00:00 UTC".data ∧
        s.uptime = some "2h 15min".data) ∧
    (∀ env : StatusEnv,
      pyIn "not-found".data (pyLower env.loadstate_stdout) = false →
      env.status_code = 0 →
      (∀ a, searchLabelLine "Active:".data env.status_stdout = some a →
        reSearchSince (pyStrip a) = none) →
      ∃ s, get_service_status env = .ok s ∧ s.started_at = none ∧ s.uptime = none) := by
  constructor
  · intro pre suf env hstdout hpre hsuf hnf hcode
    have hact : searchLabelLine "Active:".data env.status_stdout = some sinceTail := by
      rw [hstdout]
      exact searchActive_scenario pre suf hpre hsuf
    simp only [get_service_status]
    rw [if_neg (by simp [hnf]), if_neg (by simp [hcode])]
    refine ⟨_, rfl, ?_, ?_, ?_⟩
    · simp only [hact, Option.map_some', show pyStrip sinceTail = sinceTail from by decide]
      decide
    · simp only [hact, Option.map_some', show pyStrip sinceTail = sinceTail from by decide]
      decide
    · simp only [hact, Option.map_some', show pyStrip sinceTail = sinceTail from by decide]
      decide
  · intro env hnf hcode hnom
    simp only [get_service_status]
    rw [if_neg (by simp [hnf]), if_neg (by simp [hcode])]
    refine ⟨_, rfl, ?_, ?_⟩
    · cases hA : searchLabelLine "Active:".data env.status_stdout with
      | none => simp [hA]
      | some a => simp [hA, hnom a hA]
    · cases hA : searchLabelLine "Active:".data env.status_stdout with
      | none => simp [hA]
      | some a => simp [hA, hnom a hA]

/-- Witness for C3: the scenario line inside a realistic two-line status
text, and a status text with no since shape in its Active line. -/
theorem status_active_since_extraction_witness :
    (∃ s, get_service_status
        ⟨"x.service - X\n     ".data ++ (activeLineC3 ++ "\nrest".data), 0,
         "LoadState=loaded\n".data, "enabled\n".data⟩ = .ok s ∧
      s.running = true ∧
      s.started_at = some "Mon 2024-01-01 10:00:00 UTC".data ∧
      s.uptime = some "2h 15min".data) ∧
    (∃ s, get_service_status
        ⟨"Active: inactive (dead)\n".data, 0,
         "LoadState=loaded\n".data, "disabled\n".data⟩ = .ok s ∧
      s.started_at = none ∧ s.uptime = none) :=
  ⟨(status_active_since_extraction).1 "x.service - X\n     ".data "\nrest".data
     ⟨"x.service - X\n     ".data ++ (activeLineC3 ++ "\nrest".data), 0,
      "LoadState=loaded\n".data, "enabled\n".data⟩
     rfl (by decide) (by decide) (by decide) rfl,
   (status_active_since_extraction).2
     ⟨"Active: inactive (dead)\n".data, 0, "LoadState=loaded\n".data, "disabled\n".data⟩
     (by decide) rfl
     (fun a h => by
       rw [show searchLabelLine "Active:".data "Active: inactive (dead)\n".data =
         some "inactive (dead)".data from by decide] at h
       cases h
       decide)⟩

/-! Claim C9. -/

theorem find?_eq_head_filter {α : Type} (p : α → Bool) :
    ∀ l : List α, l.find? p = (l.filter p).head? := by
  intro l
  induction l with
  | nil => rfl
  | cons a t ih =>
    by_cases h : p a
    · rw [List.find?_cons_of_pos _ h, List.filter_cons_of_pos h]
      rfl
    · rw [List.find?_cons_of_neg _ h, List.filter_cons_of_neg h, ih]

theorem flatPairs_nodup : flatPairs.Nodup := by decide

theorem flatPairs_no_nested : ∀ p ∈ flatPairs, ∀ q ∈ flatPairs, p.2 <+: q.2 → p = q := by
  decide

theorem matching_pair_unique (key : List Char) :
    ∀ x ∈ flatPairs.filter (fun pr => pr.2.isPrefixOf key),
    ∀ y ∈ flatPairs.filter (fun pr => pr.2.isPrefixOf key), x = y := by
  intro x hx y hy
  have hx' := List.mem_filter.mp hx
  have hy' := List.mem_filter.mp hy
  have hxp : x.2 <+: key := List.isPrefixOf_iff_prefix.mp hx'.2
  have hyq : y.2 <+: key := List.isPrefixOf_iff_prefix.mp hy'.2
  rcases List.prefix_or_prefix_of_prefix hxp hyq with h | h
  · exact flatPairs_no_nested x hx'.1 y hy'.1 h
  · exact (flatPairs_no_nested y hy'.1 x hx'.1 h).symm

theorem filter_matching_small (key : List Char) :
    flatPairs.filter (fun pr => pr.2.isPrefixOf key) = [] ∨
    ∃ x, flatPairs.filter (fun pr => pr.2.isPrefixOf key) = [x] := by
  cases hM : flatPairs.filter (fun pr => pr.2.isPrefixOf key) with
  | nil => exact Or.inl rfl
  | cons x rest =>
    refine Or.inr ⟨x, ?_⟩
    cases hr : rest with
    | nil => rfl
    | cons y t =>
      exfalso
      have hnd : (flatPairs.filter (fun pr => pr.2.isPrefixOf key)).Nodup :=
        flatPairs_nodup.filter _
      rw [hM, hr] at hnd
      have hxy : x = y := by
        have hx : x ∈ flatPairs.filter (fun pr => pr.2.isPrefixOf key) := by
          rw [hM]; simp
        have hy : y ∈ flatPairs.filter (fun pr => pr.2.isPrefixOf key) := by
          rw [hM, hr]; simp
        exact matching_pair_unique key x hx y hy
      simp [hxy] at hnd

theorem assignStep_preserves (key : List Char) (hkey : firstMatchSection key = none)
    (acc : SectionsV2) (kv : List Char × List Char)
    (h1 : lookupAssoc acc.unitSec key = none)
    (h2 : lookupAssoc acc.serviceSec key = none)
    (h3 : lookupAssoc acc.installSec key = none) :
    lookupAssoc (assignStep acc kv).unitSec key = none ∧
    lookupAssoc (assignStep acc kv).serviceSec key = none ∧
    lookupAssoc (assignStep acc kv).installSec key = none := by
  unfold assignStep
  cases hm : firstMatchSection kv.1 with
  | none => exact ⟨h1, h2, h3⟩
  | some sec =>
    have hne : kv.1 ≠ key := by
      intro h
      rw [h, hkey] at hm
      cases hm
    simp only []
    unfold assignToSection
    by_cases hu : sec = "Unit".data
    · subst hu
      rw [if_pos rfl]
      exact ⟨(lookup_update_ne acc.unitSec key kv.1 _ hne).trans h1, h2, h3⟩
    · rw [if_neg hu]
      by_cases hs : sec = "Service".data
      · subst hs
        rw [if_pos rfl]
        exact ⟨h1, (lookup_update_ne acc.serviceSec key kv.1 _ hne).trans h2, h3⟩
      · rw [if_neg hs]
        by_cases hi : sec = "Install".data
        · subst hi
          rw [if_pos rfl]
          exact ⟨h1, h2, (lookup_update_ne acc.installSec key kv.1 _ hne).trans h3⟩
        · rw [if_neg hi]
          exact ⟨h1, h2, h3⟩

theorem assignFold_preserves (key : List Char) (hkey : firstMatchSection key = none) :
    ∀ (props : List (List Char × List Char)) (acc : SectionsV2),
      lookupAssoc acc.unitSec key = none →
      lookupAssoc acc.serviceSec key = none →
      lookupAssoc acc.installSec key = none →
      lookupAssoc (props.foldl assignStep acc).unitSec key = none ∧
      lookupAssoc (props.foldl assignStep acc).serviceSec key = none ∧
      lookupAssoc (props.foldl assignStep acc).installSec key = none := by
  intro props
  induction props with
  | nil => intro acc h1 h2 h3; exact ⟨h1, h2, h3⟩
  | cons kv t ih =>
    intro acc h1 h2 h3
    obtain ⟨g1, g2, g3⟩ := assignStep_preserves key hkey acc kv h1 h2 h3
    exact ih (assignStep acc kv) g1 g2 g3

/-- C9: the break-on-first-match section assignment of
get_service_unit_info_v2 coincides with longest-prefix match against its
fixed table for every property key (no table entry is a proper prefix of
another, so at most one entry ever matches); every key matching no table
entry is omitted from all three config sections; and the returned
all_properties map is exactly the parsed show output, with values
untouched by the per-section transformations. -/
theorem section_assignment_longest_equiv :
    (∀ key, firstMatchSection key = longestMatchSection key) ∧
    (∀ (props : List (List Char × List Char)) (key : List Char),
      firstMatchSection key = none →
      lookupAssoc (assignSections props).unitSec key = none ∧
      lookupAssoc (assignSections props).serviceSec key = none ∧
      lookupAssoc (assignSections props).installSec key = none) ∧
    (∀ (env : UnitInfoEnv) (r : UnitInfoV2),
      get_service_unit_info_v2 env = some (.ok r) →
      r.all_properties = parse_systemctl_show_output env.show_stdout) := by
  refine ⟨?_, ?_, ?_⟩
  · intro key
    unfold firstMatchSection longestMatchSection
    rw [find?_eq_head_filter]
    rcases filter_matching_small key with hM | ⟨x, hM⟩
    · rw [hM]
      rfl
    · rw [hM]
      rfl
  · intro props key hkey
    exact assignFold_preserves key hkey props ⟨[], [], []⟩ rfl rfl rfl
  · intro env r hr
    unfold get_service_unit_info_v2 at hr
    by_cases hnf : pyIn "not-found".data (pyLower env.loadstate_stdout) = true
    · rw [if_pos hnf] at hr
      cases hr
    · rw [if_neg hnf] at hr
      by_cases hc : env.show_code ≠ 0
      · rw [if_pos hc] at hr
        cases hr
      · rw [if_neg hc] at hr
        cases hmd : (if env.cat_code ≠ 0 then some ([] : List (List Char × MVal))
            else parse_x_metadata_lines env.cat_stdout) with
        | none => rw [hmd] at hr; cases hr
        | some md =>
          rw [hmd] at hr
          cases hr
          rfl

/-- Witness for C9 at a concrete key, property list and environment. -/
theorem section_assignment_longest_equiv_witness :
    firstMatchSection "ExecStartPre".data = longestMatchSection "ExecStartPre".data ∧
    (lookupAssoc (assignSections [("MainPID".data, "42".data)]).unitSec "MainPID".data = none ∧
     lookupAssoc (assignSections [("MainPID".data, "42".data)]).serviceSec "MainPID".data = none ∧
     lookupAssoc (assignSections [("MainPID".data, "42".data)]).installSec "MainPID".data = none) ∧
    (UnitInfoV2.mk
        (assignSections (parse_systemctl_show_output "Type=simple\nMainPID=42".data)) []
        (parse_systemctl_show_output "Type=simple\nMainPID=42".data)).all_properties =
      parse_systemctl_show_output "Type=simple\nMainPID=42".data :=
  ⟨(section_assignment_longest_equiv).1 "ExecStartPre".data,
   (section_assignment_longest_equiv).2.1 [("MainPID".data, "42".data)] "MainPID".data rfl,
   (section_assignment_longest_equiv).2.2
     ⟨"LoadState=loaded\n".data, "Type=simple\nMainPID=42".data, 0, [], 1⟩
     (UnitInfoV2.mk
       (assignSections (parse_systemctl_show_output "Type=simple\nMainPID=42".data)) []
       (parse_systemctl_show_output "Type=simple\nMainPID=42".data))
     rfl⟩

end ResourceManager
